import Mathlib

/-!
# Verification of the kitecopytrader Trade Replication Engine

Shallow embedding of the trade-replication core of the `kitecopytrader`
repository:

* `src/core/master_client.py` — leader feed handler `_on_order_update`,
  trade validation `_validate_trade_data`, and the `processed_orders`
  deduplication set;
* `src/follower_client.py` — `_check_risk_limits`, `_calculate_quantity`,
  `_place_order_with_retry`, `replicate_trade`;
* `src/main.py` — the fan-out handler `_on_master_trade`;
* `src/core/config.py` — `AccountConfig` and its `__post_init__` defaults.

Python numbers are modelled with `ℤ` (ints) and `ℚ` (floats, idealised as
exact arithmetic); Python `int(x)` truncation is `pyInt`; Python `//` floor
division on ints is `Int.fdiv`; Python dictionaries appear as association
lists with `dictGet` playing the role of `dict.get(key, default)`.
Credential fields (api_key, access_token, ...) are omitted: they never
influence the replication logic.
-/

namespace KiteCopy

/-- Python `int(x)` applied to a rational: truncation toward zero. -/
def pyInt (x : ℚ) : ℤ :=
  if 0 ≤ x then ⌊x⌋ else ⌈x⌉

/-- Python `d.get(k, default)` on a dictionary modelled as an association list. -/
def dictGet {α : Type} (d : List (String × α)) (k : String) (dflt : α) : α :=
  match d.lookup k with
  | some v => v
  | none => dflt

/-- Python substring test `sub in s`, specialised to the character list of `s`. -/
def containsSubAux (sub : List Char) : List Char → Bool
  | [] => sub.isEmpty
  | c :: rest => sub.isPrefixOf (c :: rest) || containsSubAux sub rest

/-- Python substring containment `sub in s` on strings. -/
def containsSub (s sub : String) : Bool :=
  containsSubAux sub.data s.data

/-- String suffix test (`s.endswith(suf)`); used only to state the
spec's "ends in a call/put suffix" reading, which the source does not use. -/
def endsWithSuffix (s suf : String) : Bool :=
  suf.data.isSuffixOf s.data

/-- Embedding of `config.py`'s `AccountConfig` (credential fields omitted; they are
inert strings never read by the replication engine). -/
structure AccountConfig where
  multiplier : ℚ
  max_position_size : ℤ
  enabled : Bool
  enabled_segments : List String
  segment_multipliers : List (String × ℚ)
  segment_limits : List (String × ℤ)

/-- Default of `AccountConfig.__post_init__` for `enabled_segments`. -/
def default_enabled_segments : List String :=
  ["NSE", "BSE", "NFO", "MCX", "BFO", "CDS"]

/-- Default of `AccountConfig.__post_init__` for `segment_multipliers`:
every segment gets the base multiplier. -/
def default_segment_multipliers (m : ℚ) : List (String × ℚ) :=
  [("NSE", m), ("BSE", m), ("NFO", m), ("MCX", m), ("BFO", m), ("CDS", m)]

/-- Default of `AccountConfig.__post_init__` for `segment_limits`:
NSE/BSE/CDS get the full `max_position_size`, NFO/BFO get `// 2`,
MCX gets `// 5`. -/
def default_segment_limits (mps : ℤ) : List (String × ℤ) :=
  [("NSE", mps), ("BSE", mps), ("NFO", mps.fdiv 2),
   ("MCX", mps.fdiv 5), ("BFO", mps.fdiv 2), ("CDS", mps)]

/-- An `AccountConfig` as produced by `__post_init__` when no explicit
segment overrides are supplied. -/
def mkAccountConfig (m : ℚ) (mps : ℤ) (enabled : Bool) : AccountConfig :=
  { multiplier := m
    max_position_size := mps
    enabled := enabled
    enabled_segments := default_enabled_segments
    segment_multipliers := default_segment_multipliers m
    segment_limits := default_segment_limits mps }

/-- The mutable follower state read by `FollowerAccountClient`'s risk checks
(`__init__` sets `daily_trades_count = 0`, `daily_pnl = 0.0`,
`max_daily_trades = 100`, `max_daily_loss = 10000.0`). -/
structure FollowerState where
  config : AccountConfig
  daily_trades_count : ℤ
  daily_pnl : ℚ
  max_daily_trades : ℤ
  max_daily_loss : ℚ

/-- Follower state as constructed by `FollowerAccountClient.__init__`. -/
def mkFollowerState (cfg : AccountConfig) : FollowerState :=
  { config := cfg, daily_trades_count := 0, daily_pnl := 0,
    max_daily_trades := 100, max_daily_loss := 10000 }

/-- The master-trade dictionary consumed by `FollowerAccountClient`
(the `trade_data` built by `MasterAccountClient._on_order_update`,
with defaults of the `.get` accessors already applied). -/
structure TradeData where
  order_id : String
  tradingsymbol : String
  exchange : String
  transaction_type : String
  quantity : ℤ
  price : ℚ
  product : String
  order_type : String

/-- Segment-specific multiplier:
`config.segment_multipliers.get(exchange, config.multiplier)`. -/
def segMultiplier (f : FollowerState) (exchange : String) : ℚ :=
  dictGet f.config.segment_multipliers exchange f.config.multiplier

/-- Segment-specific limit:
`config.segment_limits.get(exchange, config.max_position_size)`. -/
def segLimit (f : FollowerState) (exchange : String) : ℤ :=
  dictGet f.config.segment_limits exchange f.config.max_position_size

/-- The quantity `int(trade_data['quantity'] * segment_multiplier)` computed inside
`_check_risk_limits`. -/
def adjustedQty (f : FollowerState) (t : TradeData) : ℤ :=
  pyInt ((t.quantity : ℚ) * segMultiplier f t.exchange)

/-- The list of high-risk MCX commodities hard-coded in `_check_risk_limits`. -/
def high_risk_commodities : List String :=
  ["CRUDEOIL", "NATURALGAS", "GOLD", "SILVER"]

/-- Test `any(commodity in symbol for commodity in high_risk_commodities)`. -/
def isHighRiskSymbol (symbol : String) : Bool :=
  high_risk_commodities.any (fun c => containsSub symbol c)

/-- The source's options test: `'CE' in symbol or 'PE' in symbol`
(substring containment, not a suffix test). -/
def isOptionsSymbol (symbol : String) : Bool :=
  containsSub symbol "CE" || containsSub symbol "PE"

/-- Embedding of `FollowerAccountClient._check_risk_limits`.  Returns the
`(passed, message)` pair.  The trailing rate-limit block only sleeps and is
modelled as a no-op; every decision branch is kept in source order. -/
def check_risk_limits (f : FollowerState) (t : TradeData) : Bool × String :=
  if f.config.enabled = false then
    (false, "Account is disabled")
  else
    let exchange := t.exchange
    if exchange ∉ f.config.enabled_segments then
      (false, s!"Trading disabled for segment {exchange}")
    else if f.daily_trades_count ≥ f.max_daily_trades then
      let max_daily_trades := f.max_daily_trades
      (false, s!"Daily trade limit reached ({max_daily_trades})")
    else
      let segment_limit := segLimit f exchange
      let adjusted_quantity := adjustedQty f t
      if adjusted_quantity > segment_limit then
        (false, s!"Position size limit exceeded for {exchange}: {adjusted_quantity} > {segment_limit}")
      else
        let symbol := t.tradingsymbol
        let high_risk_limit := segment_limit.fdiv 2
        if exchange = "MCX" ∧ isHighRiskSymbol symbol = true ∧
            adjusted_quantity > high_risk_limit then
          (false, s!"High-risk commodity limit exceeded: {adjusted_quantity} > {high_risk_limit}")
        else
          let options_limit := segment_limit.fdiv 2
          if (exchange = "NFO" ∨ exchange = "BFO") ∧ isOptionsSymbol symbol = true ∧
              adjusted_quantity > options_limit then
            (false, s!"Options position limit exceeded: {adjusted_quantity} > {options_limit}")
          else if exchange = "CDS" ∧ adjusted_quantity > segment_limit then
            (false, s!"Currency position limit exceeded: {adjusted_quantity} > {segment_limit}")
          else if f.daily_pnl < -f.max_daily_loss then
            (false, "Daily loss limit reached")
          else
            (true, s!"Risk check passed for {exchange}")

/-- Embedding of `FollowerAccountClient._calculate_quantity`. -/
def calculate_quantity (f : FollowerState) (original_quantity : ℤ)
    (exchange : String) : ℤ :=
  let segment_multiplier := segMultiplier f exchange
  let adjusted_quantity := pyInt ((original_quantity : ℚ) * segment_multiplier)
  let adjusted_quantity :=
    if adjusted_quantity < 1 ∧ segment_multiplier > 0 then 1 else adjusted_quantity
  -- the MCX and NFO/BFO minimum-lot blocks test `0 < adjusted < 1`,
  -- which is unsatisfiable on integers; they are kept verbatim
  if exchange = "MCX" ∧ adjusted_quantity > 0 ∧ adjusted_quantity < 1 then 1
  else if (exchange = "NFO" ∨ exchange = "BFO") ∧ adjusted_quantity > 0 ∧
      adjusted_quantity < 1 then 1
  else adjusted_quantity

/-! ## Replication Executor: `_place_order_with_retry` -/

/-- Outcome of one `kite.place_order` attempt: success with an order id,
a `KiteException` carrying a broker error code, or any other exception
(the generic `except Exception` branch). -/
inductive AttemptResult where
  | success (order_id : String)
  | kiteError (code : ℤ)
  | genericError (msg : String)
deriving DecidableEq

/-- The broker codes treated as retryable: `[429, 500, 502, 503, 504]`. -/
def retryable_codes : List ℤ := [429, 500, 502, 503, 504]

/-- Observable trace of one `_place_order_with_retry` call: how many times
`kite.place_order` was invoked, the `time.sleep` durations between attempts
(in seconds), and the returned value (`order_id` or `None`). -/
structure RetryTrace where
  attempts : ℕ
  delays : List ℕ
  result : Option String
deriving DecidableEq

/-- The body of `_place_order_with_retry`'s `for attempt in range(max_retries)`
loop, run over the list of remaining attempt indices.  `broker i` is the
outcome of the `i`-th `kite.place_order` call.  Mirrors the source exactly:
a retryable `KiteException` with budget left sleeps `2 ** attempt` and
continues; a non-retryable one breaks; a generic exception with budget left
sleeps `1` and continues, otherwise breaks. -/
def runRetry (broker : ℕ → AttemptResult) (max_retries : ℕ) :
    List ℕ → RetryTrace
  | [] => { attempts := 0, delays := [], result := none }
  | attempt :: rest =>
    match broker attempt with
    | .success oid => { attempts := 1, delays := [], result := some oid }
    | .kiteError code =>
      if code ∈ retryable_codes ∧ attempt < max_retries - 1 then
        let t := runRetry broker max_retries rest
        { attempts := t.attempts + 1, delays := 2 ^ attempt :: t.delays,
          result := t.result }
      else
        { attempts := 1, delays := [], result := none }
    | .genericError _ =>
      if attempt < max_retries - 1 then
        let t := runRetry broker max_retries rest
        { attempts := t.attempts + 1, delays := 1 :: t.delays,
          result := t.result }
      else
        { attempts := 1, delays := [], result := none }

/-- Embedding of `FollowerAccountClient._place_order_with_retry` (default
`max_retries = 3`). -/
def place_order_with_retry (broker : ℕ → AttemptResult)
    (max_retries : ℕ) : RetryTrace :=
  runRetry broker max_retries (List.range max_retries)

/-! ## `replicate_trade`: the order actually submitted -/

/-- The keyword arguments passed to `kite.place_order` by `replicate_trade`
(`price` is `none` when the key is absent). -/
structure OrderParams where
  variety : String
  exchange : String
  tradingsymbol : String
  transaction_type : String
  quantity : ℤ
  product : String
  order_type : String
  price : Option ℚ
  tag : String
deriving DecidableEq

/-- Order-parameter construction inside `replicate_trade`: base dict with
`order_type = 'MARKET'`, then the LIMIT-order override (only when the master
order type is `'LIMIT'` and the price is truthy, i.e. nonzero), then the
MCX product coercion to `'MIS'`. -/
def build_order_params (t : TradeData) (adjusted_quantity : ℤ) : OrderParams :=
  let order_id := t.order_id
  let exchange := t.exchange
  let base : OrderParams :=
    { variety := "regular"
      exchange := t.exchange
      tradingsymbol := t.tradingsymbol
      transaction_type := t.transaction_type
      quantity := adjusted_quantity
      product := t.product
      order_type := "MARKET"
      price := none
      tag := s!"copy_trade_{order_id}_{exchange}" }
  let withLimit :=
    if t.order_type = "LIMIT" ∧ t.price ≠ 0 then
      { base with order_type := "LIMIT", price := some t.price }
    else base
  if t.exchange = "MCX" ∧ t.product ∉ (["MIS", "NRML"] : List String) then
    { withLimit with product := "MIS" }
  else withLimit

/-- Embedding of `FollowerAccountClient.replicate_trade`, projected onto the order it
submits: `none` when the risk check blocks the trade or the adjusted
quantity is `≤ 0` (no `place_order` call happens), otherwise the
`place_order` parameters. -/
def replicate_trade_order (f : FollowerState) (t : TradeData) :
    Option OrderParams :=
  if (check_risk_limits f t).1 = false then none
  else
    let adjusted_quantity := calculate_quantity f t.quantity t.exchange
    if adjusted_quantity ≤ 0 then none
    else some (build_order_params t adjusted_quantity)

/-! ## Leader feed: `MasterAccountClient._on_order_update` -/

/-- A raw order-update dictionary as delivered by the WebSocket, with each
`data.get(...)` access modelled by an `Option` field (`none` = key absent
or `None`); `quantity` and `price` carry the `.get(key, 0)` default. -/
structure RawOrderData where
  status : Option String
  order_id : Option String
  tradingsymbol : Option String
  exchange : Option String
  transaction_type : Option String
  quantity : ℤ
  price : ℚ
  product : Option String
  order_type : Option String
  order_timestamp : Option String

/-- The `trade_data` dictionary that `_on_order_update` assembles and hands
to `on_trade_callback`. -/
structure TradeRecord where
  order_id : Option String
  tradingsymbol : Option String
  exchange : Option String
  transaction_type : Option String
  quantity : ℤ
  price : ℚ
  product : Option String
  order_type : Option String
  timestamp : Option String
  user_id : String

/-- Python truthiness of an optional string (`not trade_data.get(field)`
fails for `None` and for the empty string). -/
def optTruthy : Option String → Bool
  | none => false
  | some s => !(s = "")

/-- Embedding of `MasterAccountClient._validate_trade_data`.  The required-field loop
checks truthiness of `tradingsymbol, exchange, transaction_type, quantity,
product` (an int field is falsy exactly when it is `0`); then `quantity ≤ 0`
and the `BUY`/`SELL` test reject; the exchange whitelist and the
segment-specific branches only log and never reject. -/
def validate_trade_data (t : TradeRecord) : Bool :=
  if optTruthy t.tradingsymbol = false then false
  else if optTruthy t.exchange = false then false
  else if optTruthy t.transaction_type = false then false
  else if t.quantity = 0 then false
  else if optTruthy t.product = false then false
  else if t.quantity ≤ 0 then false
  else if t.transaction_type ∉ ([some "BUY", some "SELL"] : List (Option String)) then
    false
  else true

/-- Embedding of `MasterAccountClient._on_order_update` as a state transformer on the
`processed_orders` set.  Returns the new set and the list of
`on_trade_callback` invocations (empty or a singleton).  `cbRaises` tells
whether the callback raises on a given record; the surrounding
`try/except` only logs such an exception, so neither the set nor the
return value depends on it.  `user_id` is `self.config.user_id`. -/
def on_order_update (processed : Finset (Option String)) (data : RawOrderData)
    (cbRaises : TradeRecord → Bool) (user_id : String) :
    Finset (Option String) × List TradeRecord :=
  if data.status = some "COMPLETE" then
    if data.order_id ∈ processed then (processed, [])
    else
      let processed2 := insert data.order_id processed
      let trade_data : TradeRecord :=
        { order_id := data.order_id
          tradingsymbol := data.tradingsymbol
          exchange := data.exchange
          transaction_type := data.transaction_type
          quantity := data.quantity
          price := data.price
          product := data.product
          order_type := data.order_type
          timestamp := data.order_timestamp
          user_id := user_id }
      if validate_trade_data trade_data = true then (processed2, [trade_data])
      else (processed2, [])
  else (processed, [])

/-- Folding `_on_order_update` over a whole sequence of raw feed events,
collecting every callback invocation. -/
def runOrderUpdates (cbRaises : TradeRecord → Bool) (user_id : String) :
    Finset (Option String) → List RawOrderData →
    Finset (Option String) × List TradeRecord
  | processed, [] => (processed, [])
  | processed, d :: rest =>
    let step := on_order_update processed d cbRaises user_id
    let next := runOrderUpdates cbRaises user_id step.1 rest
    (next.1, step.2 ++ next.2)

/-! ## Fan-Out Coordinator: `CopyTradingSystem._on_master_trade` -/

/-- System-level counters of `CopyTradingSystem`. -/
structure SystemStats where
  total_trades_processed : ℤ
  successful_replications : ℤ
  failed_replications : ℤ
deriving DecidableEq

/-- What one follower's `replicate_trade` call did inside the fan-out loop:
returned a boolean, or raised (caught by the per-follower `except`). -/
inductive FollowerOutcome where
  | ok (b : Bool)
  | exn (msg : String)
deriving DecidableEq

/-- The success booleans the fan-out loop observes: a raised exception
counts as failure (it is caught, logged, and the loop continues). -/
def outcomeBool : FollowerOutcome → Bool
  | .ok b => b
  | .exn _ => false

/-- Embedding of `CopyTradingSystem._on_master_trade`, given whether
`_is_trading_allowed()` holds and the outcome of each follower's
`replicate_trade`.  Returns the updated counters and the per-follower
success record.  `successful_count == len(self.follower_clients)` gates the
success counter; any shortfall increments the failure counter. -/
def on_master_trade (stats : SystemStats) (trading_allowed : Bool)
    (outcomes : List FollowerOutcome) : SystemStats × List Bool :=
  let stats1 :=
    { stats with total_trades_processed := stats.total_trades_processed + 1 }
  if trading_allowed = false then (stats1, [])
  else
    let results := outcomes.map outcomeBool
    let successful_count := results.countP (fun b => b)
    if successful_count = outcomes.length then
      ({ stats1 with
          successful_replications := stats1.successful_replications + 1 },
        results)
    else
      ({ stats1 with
          failed_replications := stats1.failed_replications + 1 },
        results)

/-! ## Basic facts about `pyInt` and `_calculate_quantity` -/

theorem pyInt_of_nonneg {x : ℚ} (h : 0 ≤ x) : pyInt x = ⌊x⌋ :=
  if_pos h

theorem pyInt_eq_zero {x : ℚ} (h0 : 0 ≤ x) (h1 : x < 1) : pyInt x = 0 := by
  rw [pyInt_of_nonneg h0]
  exact Int.floor_eq_zero_iff.mpr ⟨h0, h1⟩

theorem pyInt_nonneg {x : ℚ} (h : 0 ≤ x) : 0 ≤ pyInt x := by
  rw [pyInt_of_nonneg h]
  exact Int.floor_nonneg.mpr h

/-- The two minimum-lot branches of `_calculate_quantity` are dead on
integers, so the function reduces to the clamp rule applied to
`int(q * segment_multiplier)`. -/
theorem calculate_quantity_eq (f : FollowerState) (q : ℤ) (exchange : String) :
    calculate_quantity f q exchange =
      if pyInt ((q : ℚ) * segMultiplier f exchange) < 1 ∧
          segMultiplier f exchange > 0 then 1
      else pyInt ((q : ℚ) * segMultiplier f exchange) := by
  simp only [calculate_quantity]
  split_ifs <;> omega

/-- If `_check_risk_limits` passes, the step-4 position-size test passed:
`int(quantity * segment_multiplier) ≤ segment_limit`. -/
theorem risk_pass_le (f : FollowerState) (t : TradeData)
    (h : (check_risk_limits f t).1 = true) :
    adjustedQty f t ≤ segLimit f t.exchange := by
  simp only [check_risk_limits] at h
  split_ifs at h <;> simp_all <;> omega

theorem build_order_params_quantity (t : TradeData) (a : ℤ) :
    (build_order_params t a).quantity = a := by
  simp only [build_order_params]
  split_ifs <;> rfl

/-! ## C4 and C5: sizing bounds and the clamp rule -/

/-- C4 (amended): whenever `replicate_trade` reaches `place_order`, the
submitted quantity `p.quantity` satisfies
`0 ≤ p.quantity ≤ max (segment_limit) 1`.  (The unamended bound
`p.quantity ≤ segment_limit` fails when the clamp-to-1 rule fires with a
zero segment limit; see the counterexample.) -/
theorem C4_quantity_bound (f : FollowerState) (t : TradeData) (p : OrderParams)
    (h : replicate_trade_order f t = some p) :
    0 ≤ p.quantity ∧ p.quantity ≤ max (segLimit f t.exchange) 1 := by
  simp only [replicate_trade_order] at h
  split_ifs at h with h1 h2
  have hp : p = build_order_params t (calculate_quantity f t.quantity t.exchange) :=
    (Option.some.inj h).symm
  have hq : p.quantity = calculate_quantity f t.quantity t.exchange := by
    rw [hp, build_order_params_quantity]
  have hpass : (check_risk_limits f t).1 = true := by
    revert h1; cases (check_risk_limits f t).1 <;> simp
  have hle : adjustedQty f t ≤ segLimit f t.exchange := risk_pass_le f t hpass
  have hpos : ¬ calculate_quantity f t.quantity t.exchange ≤ 0 := h2
  constructor
  · omega
  · rw [hq, calculate_quantity_eq]
    split_ifs with hc
    · exact le_max_right _ 1
    · have hpy : pyInt ((t.quantity : ℚ) * segMultiplier f t.exchange) =
          adjustedQty f t := rfl
      rw [hpy]
      exact le_trans hle (le_max_left _ 1)

/-- Follower used by the C4 counterexample: base multiplier `0.5` and
`max_position_size = 0`, with the `__post_init__` default segment tables
(so the NSE segment limit is `0`). -/
def fC4 : FollowerState := mkFollowerState (mkAccountConfig (1/2) 0 true)

/-- NSE master trade of quantity 1 used by the C4 counterexample. -/
def tC4 : TradeData :=
  { order_id := "MO4", tradingsymbol := "RELIANCE", exchange := "NSE",
    transaction_type := "BUY", quantity := 1, price := 0,
    product := "CNC", order_type := "MARKET" }

theorem fC4_risk_pass : (check_risk_limits fC4 tC4).1 = true := by
  have ha : adjustedQty fC4 tC4 = 0 := by
    show pyInt ((1 : ℤ) * segMultiplier fC4 "NSE") = 0
    rw [show segMultiplier fC4 "NSE" = 1/2 from rfl]
    norm_num [pyInt]
  simp only [check_risk_limits, ha]
  decide

theorem fC4_replicate :
    replicate_trade_order fC4 tC4 = some (build_order_params tC4 1) := by
  have hc : calculate_quantity fC4 tC4.quantity tC4.exchange = 1 := by
    show calculate_quantity fC4 (1 : ℤ) "NSE" = 1
    rw [calculate_quantity_eq, show segMultiplier fC4 "NSE" = 1/2 from rfl]
    norm_num [pyInt]
  simp only [replicate_trade_order]
  rw [if_neg (by simp [fC4_risk_pass]), hc, if_neg (by omega)]

/-- C4 (counterexample): with segment limit `0` and multiplier `0.5`, the
risk check allows the trade (`int(1 * 0.5) = 0 ≤ 0`), but the clamp-to-1
rule then submits quantity `1 > 0 = segment_limit`, violating
`adjusted_quantity ≤ segment_limit`. -/
theorem C4_counterexample :
    (check_risk_limits fC4 tC4).1 = true ∧
    (replicate_trade_order fC4 tC4).map OrderParams.quantity = some 1 ∧
    segLimit fC4 tC4.exchange = 0 ∧ ¬ ((1 : ℤ) ≤ segLimit fC4 tC4.exchange) := by
  refine ⟨fC4_risk_pass, ?_, by decide, by decide⟩
  rw [fC4_replicate]
  simp [build_order_params_quantity]

/-- C4 (witness for the amended bound): instantiated on the very trade of
the counterexample, where the submitted quantity is `1 = max 0 1`. -/
theorem C4_quantity_bound_witness :
    0 ≤ (build_order_params tC4 1).quantity ∧
    (build_order_params tC4 1).quantity ≤ max (segLimit fC4 tC4.exchange) 1 :=
  C4_quantity_bound fC4 tC4 (build_order_params tC4 1) fC4_replicate

/-- C5: the clamp rule.  (1) If the original quantity is positive and
`0 < quantity * segment_multiplier < 1`, `_calculate_quantity` returns
exactly 1.  (2) If the segment multiplier is `0`, `replicate_trade` submits
no order at all (the adjusted quantity is `0 ≤ 0`, so the trade is skipped
before `place_order`). -/
theorem C5_clamp_rule :
    (∀ (f : FollowerState) (exchange : String) (q : ℤ), 0 < q →
        0 < (q : ℚ) * segMultiplier f exchange →
        (q : ℚ) * segMultiplier f exchange < 1 →
        calculate_quantity f q exchange = 1) ∧
    (∀ (f : FollowerState) (t : TradeData),
        segMultiplier f t.exchange = 0 → replicate_trade_order f t = none) := by
  constructor
  · intro f exchange q hq h0 h1
    have hm : 0 < segMultiplier f exchange := by
      by_contra hm
      push_neg at hm
      have hq0 : (0 : ℚ) ≤ (q : ℚ) := by exact_mod_cast hq.le
      have : (q : ℚ) * segMultiplier f exchange ≤ 0 :=
        mul_nonpos_of_nonneg_of_nonpos hq0 hm
      linarith
    have ha : pyInt ((q : ℚ) * segMultiplier f exchange) = 0 :=
      pyInt_eq_zero h0.le h1
    rw [calculate_quantity_eq, ha, if_pos ⟨by omega, hm⟩]
  · intro f t hm
    have hc : calculate_quantity f t.quantity t.exchange = 0 := by
      rw [calculate_quantity_eq, hm]
      simp [pyInt]
    simp only [replicate_trade_order]
    split_ifs with h1 h2
    · rfl
    · rfl
    · exact absurd (hc ▸ h2) (by omega)

/-- Follower with segment multiplier `0.5` used by the C5 witness. -/
def fC5 : FollowerState := mkFollowerState (mkAccountConfig (1/2) 1000 true)

/-- Follower with segment multiplier `0` used by the C5 witness. -/
def fC5z : FollowerState := mkFollowerState (mkAccountConfig 0 1000 true)

/-- NSE trade of quantity 1 used by the C5 witness. -/
def tC5 : TradeData :=
  { order_id := "MO5", tradingsymbol := "TCS", exchange := "NSE",
    transaction_type := "BUY", quantity := 1, price := 0,
    product := "CNC", order_type := "MARKET" }

/-- C5 (witness): with quantity 1 and multiplier `0.5`
(`0 < 0.5 < 1`), the computed quantity is exactly 1; with multiplier `0`
the same trade produces no order. -/
theorem C5_clamp_rule_witness :
    calculate_quantity fC5 1 "NSE" = 1 ∧ replicate_trade_order fC5z tC5 = none := by
  have hm : segMultiplier fC5 "NSE" = 1/2 := rfl
  have hmz : segMultiplier fC5z tC5.exchange = 0 := rfl
  exact ⟨C5_clamp_rule.1 fC5 "NSE" 1 (by norm_num)
      (by rw [hm]; norm_num) (by rw [hm]; norm_num),
    C5_clamp_rule.2 fC5z tC5 hmz⟩

/-! ## C2 and C6: the retry loop -/

/-- Failures after which the source's loop continues to another attempt: a
`KiteException` with a retryable code, or any non-Kite exception. -/
def retriedOutcome (r : AttemptResult) : Prop :=
  (∃ c, r = AttemptResult.kiteError c ∧ c ∈ retryable_codes) ∨
  (∃ m, r = AttemptResult.genericError m)

/-- The sleep the source performs after attempt `i` before retrying:
`2 ** i` seconds after a retryable `KiteException`, `1` second after a
generic exception.  (A successful attempt is never followed by a sleep.) -/
def delayFor (r : AttemptResult) (i : ℕ) : ℕ :=
  match r with
  | .kiteError _ => 2 ^ i
  | _ => 1

theorem runRetry_spec (broker : ℕ → AttemptResult) (m : ℕ) :
    ∀ n s, s + n = m →
      (runRetry broker m (List.range' s n)).attempts ≤ n ∧
      (1 ≤ n → 1 ≤ (runRetry broker m (List.range' s n)).attempts) ∧
      (runRetry broker m (List.range' s n)).delays.length =
        (runRetry broker m (List.range' s n)).attempts - 1 ∧
      (∀ i, i + 1 < (runRetry broker m (List.range' s n)).attempts →
        retriedOutcome (broker (s + i))) ∧
      (∀ i, i < (runRetry broker m (List.range' s n)).delays.length →
        (runRetry broker m (List.range' s n)).delays.getD i 0 =
          delayFor (broker (s + i)) (s + i)) := by
  intro n
  induction n with
  | zero =>
    intro s _
    refine ⟨by simp [runRetry], by omega, by simp [runRetry], ?_, ?_⟩
    · intro i hi
      simp [runRetry] at hi
    · intro i h
      simp [runRetry] at h
  | succ n ih =>
    intro s hsm
    have hrange : List.range' s (n + 1) = s :: List.range' (s + 1) n := by
      simp [List.range'_succ]
    rw [hrange]
    rcases hb : broker s with oid | code | msg
    · have hstep : runRetry broker m (s :: List.range' (s + 1) n) =
          { attempts := 1, delays := [], result := some oid } := by
        simp only [runRetry, hb]
      refine ⟨by simp [hstep], by simp [hstep], by simp [hstep], ?_, ?_⟩
      · intro i hi
        simp [hstep] at hi
      · intro i h
        simp [hstep] at h
    · by_cases hcond : code ∈ retryable_codes ∧ s < m - 1
      · have hstep : runRetry broker m (s :: List.range' (s + 1) n) =
            { attempts := (runRetry broker m (List.range' (s + 1) n)).attempts + 1,
              delays := 2 ^ s :: (runRetry broker m (List.range' (s + 1) n)).delays,
              result := (runRetry broker m (List.range' (s + 1) n)).result } := by
          simp only [runRetry, hb]
          rw [if_pos hcond]
        have hn1 : 1 ≤ n := by omega
        obtain ⟨ih1, ih2, ih3, ih4, ih5⟩ := ih (s + 1) (by omega)
        have ha1 : 1 ≤ (runRetry broker m (List.range' (s + 1) n)).attempts := ih2 hn1
        refine ⟨by simp [hstep]; omega, by simp [hstep], ?_, ?_, ?_⟩
        · simp only [hstep, List.length_cons]
          omega
        · intro i hi
          simp only [hstep] at hi
          rcases i with _ | j
          · exact Or.inl ⟨code, hb, hcond.1⟩
          · have hj : j + 1 < (runRetry broker m (List.range' (s + 1) n)).attempts := by
              omega
            have harith : s + (j + 1) = s + 1 + j := by omega
            rw [harith]
            exact ih4 j hj
        · intro i h
          simp only [hstep, List.length_cons] at h
          rcases i with _ | j
          · simp [hstep, hb, delayFor]
          · have hj : j < (runRetry broker m (List.range' (s + 1) n)).delays.length := by
              omega
            have harith : s + (j + 1) = s + 1 + j := by omega
            simp only [hstep, List.getD_cons_succ]
            rw [harith]
            exact ih5 j hj
      · have hstep : runRetry broker m (s :: List.range' (s + 1) n) =
            { attempts := 1, delays := [], result := none } := by
          simp only [runRetry, hb]
          rw [if_neg hcond]
        refine ⟨by simp [hstep], by simp [hstep], by simp [hstep], ?_, ?_⟩
        · intro i hi
          simp [hstep] at hi
        · intro i h
          simp [hstep] at h
    · by_cases hcond : s < m - 1
      · have hstep : runRetry broker m (s :: List.range' (s + 1) n) =
            { attempts := (runRetry broker m (List.range' (s + 1) n)).attempts + 1,
              delays := 1 :: (runRetry broker m (List.range' (s + 1) n)).delays,
              result := (runRetry broker m (List.range' (s + 1) n)).result } := by
          simp only [runRetry, hb]
          rw [if_pos hcond]
        have hn1 : 1 ≤ n := by omega
        obtain ⟨ih1, ih2, ih3, ih4, ih5⟩ := ih (s + 1) (by omega)
        have ha1 : 1 ≤ (runRetry broker m (List.range' (s + 1) n)).attempts := ih2 hn1
        refine ⟨by simp [hstep]; omega, by simp [hstep], ?_, ?_, ?_⟩
        · simp only [hstep, List.length_cons]
          omega
        · intro i hi
          simp only [hstep] at hi
          rcases i with _ | j
          · exact Or.inr ⟨msg, hb⟩
          · have hj : j + 1 < (runRetry broker m (List.range' (s + 1) n)).attempts := by
              omega
            have harith : s + (j + 1) = s + 1 + j := by omega
            rw [harith]
            exact ih4 j hj
        · intro i h
          simp only [hstep, List.length_cons] at h
          rcases i with _ | j
          · simp [hstep, hb, delayFor]
          · have hj : j < (runRetry broker m (List.range' (s + 1) n)).delays.length := by
              omega
            have harith : s + (j + 1) = s + 1 + j := by omega
            simp only [hstep, List.getD_cons_succ]
            rw [harith]
            exact ih5 j hj
      · have hstep : runRetry broker m (s :: List.range' (s + 1) n) =
            { attempts := 1, delays := [], result := none } := by
          simp only [runRetry, hb]
          rw [if_neg hcond]
        refine ⟨by simp [hstep], by simp [hstep], by simp [hstep], ?_, ?_⟩
        · intro i hi
          simp [hstep] at hi
        · intro i h
          simp [hstep] at h

theorem place_order_with_retry_eq (broker : ℕ → AttemptResult) :
    place_order_with_retry broker 3 = runRetry broker 3 (List.range' 0 3) := by
  rw [place_order_with_retry, List.range_eq_range']

/-- C6: for any sequence of broker outcomes, one `_place_order_with_retry`
call invokes `kite.place_order` at most 3 times, and terminates returning
either an order id or `None`. -/
theorem C6_retry_ceiling (broker : ℕ → AttemptResult) :
    (place_order_with_retry broker 3).attempts ≤ 3 ∧
    ((place_order_with_retry broker 3).result = none ∨
      ∃ oid, (place_order_with_retry broker 3).result = some oid) := by
  constructor
  · rw [place_order_with_retry_eq]
    exact (runRetry_spec broker 3 3 0 (by omega)).1
  · cases hres : (place_order_with_retry broker 3).result
    · exact Or.inl rfl
    · exact Or.inr ⟨_, rfl⟩

/-- C2 (counterexample): a call whose every attempt raises a generic
(non-broker) exception — which has no broker error code, hence no transient
classification — is nevertheless retried: 3 attempts happen instead of
failing immediately after the first, and the inter-attempt delays are the
constant `[1, 1]`, not the exponential `1s, 2s` backoff.  This refutes
"on any failure with any other classification the call fails immediately
without a further attempt". -/
theorem C2_counterexample :
    (place_order_with_retry
        (fun _ => AttemptResult.genericError "connection reset") 3).attempts = 3 ∧
    (place_order_with_retry
        (fun _ => AttemptResult.genericError "connection reset") 3).delays = [1, 1] := by
  decide

/-- C2 (amended): a retry (a second or later attempt) occurs only when the
preceding failure was either a `KiteException` with transient code
(429/500/502/503/504) or an unexpected non-broker exception; broker errors
with any other code fail immediately.  The delay before retry number `i+1`
is `2 ** i` seconds (1s, 2s, 4s, ...) after a transient broker error, but a
constant 1 second after a generic exception. -/
theorem C2_retry_policy (broker : ℕ → AttemptResult) :
    (∀ i, i + 1 < (place_order_with_retry broker 3).attempts →
      retriedOutcome (broker i)) ∧
    (place_order_with_retry broker 3).delays.length =
      (place_order_with_retry broker 3).attempts - 1 ∧
    (∀ i, i < (place_order_with_retry broker 3).delays.length →
      (place_order_with_retry broker 3).delays.getD i 0 = delayFor (broker i) i) := by
  obtain ⟨h1, h2, h3, h4, h5⟩ := runRetry_spec broker 3 3 0 (by omega)
  rw [place_order_with_retry_eq]
  refine ⟨?_, h3, ?_⟩
  · intro i hi
    simpa using h4 i hi
  · intro i hi
    simpa using h5 i hi

/-- Broker stub used by the C2 witness: every attempt fails with the
transient rate-limit code 429. -/
def brokerRetryW : ℕ → AttemptResult := fun _ => AttemptResult.kiteError 429

/-- C2 (witness): on a run with three 429 failures, attempt 1 exists and is
justified by a transient broker code, and the first delay is `2 ** 0 = 1`. -/
theorem C2_retry_policy_witness :
    retriedOutcome (brokerRetryW 0) ∧
    (place_order_with_retry brokerRetryW 3).delays.getD 0 0 =
      delayFor (brokerRetryW 0) 0 :=
  ⟨(C2_retry_policy brokerRetryW).1 0 (by decide),
    (C2_retry_policy brokerRetryW).2.2 0 (by decide)⟩

/-! ## C1, C8, C9: deduplication in `_on_order_update` -/

theorem on_order_update_of_mem {processed : Finset (Option String)}
    {d : RawOrderData} (cb : TradeRecord → Bool) (uid : String)
    (h : d.order_id ∈ processed) :
    on_order_update processed d cb uid = (processed, []) := by
  simp only [on_order_update]
  by_cases hs : d.status = some "COMPLETE"
  · rw [if_pos hs, if_pos h]
  · rw [if_neg hs]

theorem on_order_update_subset (processed : Finset (Option String))
    (d : RawOrderData) (cb : TradeRecord → Bool) (uid : String) :
    processed ⊆ (on_order_update processed d cb uid).1 := by
  simp only [on_order_update]
  split_ifs <;>
    first
      | exact Finset.Subset.refl _
      | exact Finset.subset_insert _ _

theorem on_order_update_insert {processed : Finset (Option String)}
    {d : RawOrderData} (cb : TradeRecord → Bool) (uid : String)
    (hs : d.status = some "COMPLETE") (hm : d.order_id ∉ processed) :
    (on_order_update processed d cb uid).1 = insert d.order_id processed := by
  simp only [on_order_update]
  rw [if_pos hs, if_neg hm]
  split_ifs <;> rfl

/-- Any record handed to the callback carries the event's `order_id`, which
was absent from the set before the call and present afterwards. -/
theorem on_order_update_emit {processed : Finset (Option String)}
    {d : RawOrderData} {cb : TradeRecord → Bool} {uid : String}
    {tr : TradeRecord} (h : tr ∈ (on_order_update processed d cb uid).2) :
    tr.order_id = d.order_id ∧ d.order_id ∉ processed ∧
      (on_order_update processed d cb uid).1 = insert d.order_id processed := by
  simp only [on_order_update] at h
  split_ifs at h with h1 h2 h3
  · simp at h
  · simp only at h
    simp only [List.mem_singleton] at h
    subst h
    exact ⟨rfl, h2, on_order_update_insert cb uid h1 h2⟩
  · simp at h
  · simp at h

theorem on_order_update_len {processed : Finset (Option String)}
    {d : RawOrderData} (cb : TradeRecord → Bool) (uid : String) :
    (on_order_update processed d cb uid).2.length ≤ 1 := by
  simp only [on_order_update]
  split_ifs <;> simp

theorem runOrderUpdates_subset (cb : TradeRecord → Bool) (uid : String) :
    ∀ (events : List RawOrderData) (processed : Finset (Option String)),
      processed ⊆ (runOrderUpdates cb uid processed events).1 := by
  intro events
  induction events with
  | nil => intro processed; exact Finset.Subset.refl _
  | cons d rest ih =>
    intro processed
    exact (on_order_update_subset processed d cb uid).trans
      (ih (on_order_update processed d cb uid).1)

/-- Count of emitted callback records carrying a given order identity. -/
def countOrd (o : Option String) (l : List TradeRecord) : ℕ :=
  l.countP (fun tr => decide (tr.order_id = o))

theorem countOrd_append (o : Option String) (l1 l2 : List TradeRecord) :
    countOrd o (l1 ++ l2) = countOrd o l1 + countOrd o l2 :=
  List.countP_append _ _ _

/-- Once an identity is in the set, no later event emits a record for it. -/
theorem runOrderUpdates_countOrd_zero (cb : TradeRecord → Bool) (uid : String) :
    ∀ (events : List RawOrderData) (processed : Finset (Option String))
      (o : Option String), o ∈ processed →
      countOrd o (runOrderUpdates cb uid processed events).2 = 0 := by
  intro events
  induction events with
  | nil => intro processed o _; rfl
  | cons d rest ih =>
    intro processed o ho
    show countOrd o ((on_order_update processed d cb uid).2 ++
      (runOrderUpdates cb uid (on_order_update processed d cb uid).1 rest).2) = 0
    rw [countOrd_append]
    have h1 : countOrd o (on_order_update processed d cb uid).2 = 0 := by
      rcases hcase : (on_order_update processed d cb uid).2 with _ | ⟨tr, rest2⟩
      · rfl
      · have htr : tr ∈ (on_order_update processed d cb uid).2 := by
          rw [hcase]; exact List.mem_cons_self _ _
        obtain ⟨hid, hnm, _⟩ := on_order_update_emit htr
        have hlen := @on_order_update_len processed d cb uid
        rw [hcase] at hlen
        have hr2 : rest2 = [] := by
          simp only [List.length_cons] at hlen
          exact List.length_eq_zero.mp (by omega)
        subst hr2
        have hne : tr.order_id ≠ o := by
          rw [hid]
          intro heq
          exact hnm (heq ▸ ho)
        simp [countOrd, hne]
    have h2 : countOrd o
        (runOrderUpdates cb uid (on_order_update processed d cb uid).1 rest).2 = 0 :=
      ih _ o (on_order_update_subset processed d cb uid ho)
    omega

/-- Across any event sequence, each identity is emitted at most once. -/
theorem runOrderUpdates_countOrd_le_one (cb : TradeRecord → Bool) (uid : String) :
    ∀ (events : List RawOrderData) (processed : Finset (Option String))
      (o : Option String),
      countOrd o (runOrderUpdates cb uid processed events).2 ≤ 1 := by
  intro events
  induction events with
  | nil => intro processed o; simp [runOrderUpdates, countOrd]
  | cons d rest ih =>
    intro processed o
    show countOrd o ((on_order_update processed d cb uid).2 ++
      (runOrderUpdates cb uid (on_order_update processed d cb uid).1 rest).2) ≤ 1
    rw [countOrd_append]
    by_cases hc : countOrd o (on_order_update processed d cb uid).2 = 0
    · have := ih (on_order_update processed d cb uid).1 o
      omega
    · rcases hcase : (on_order_update processed d cb uid).2 with _ | ⟨tr, rest2⟩
      · rw [hcase] at hc
        exact absurd rfl hc
      · have htr : tr ∈ (on_order_update processed d cb uid).2 := by
          rw [hcase]; exact List.mem_cons_self _ _
        obtain ⟨hid, hnm, hins⟩ := on_order_update_emit htr
        have hlen := @on_order_update_len processed d cb uid
        rw [hcase] at hlen
        have hr2 : rest2 = [] := by
          simp only [List.length_cons] at hlen
          exact List.length_eq_zero.mp (by omega)
        subst hr2
        rw [hcase] at hc
        have hmem : o ∈ (on_order_update processed d cb uid).1 := by
          rw [hins]
          by_cases ho : tr.order_id = o
          · rw [hid] at ho
            rw [← ho]
            exact Finset.mem_insert_self _ _
          · exfalso
            exact hc (by simp [countOrd, ho])
        have hz := runOrderUpdates_countOrd_zero cb uid rest _ o hmem
        have hone : countOrd o [tr] ≤ 1 := by
          by_cases ho : tr.order_id = o <;> simp [countOrd, ho]
        omega

/-- C1: order identities are replicated at most once per process lifetime.
(1) `_on_order_update` on an event whose `order_id` is already in
`processed_orders` returns with the state unchanged and zero callback
invocations (hence zero follower submissions).  (2) Consequently, across
any sequence of raw feed events, at most one callback invocation carries a
given order identity, whatever the initial set, the callback behaviour, or
the events delivered. -/
theorem C1_at_most_once :
    (∀ (processed : Finset (Option String)) (d : RawOrderData)
        (cb : TradeRecord → Bool) (uid : String),
      d.order_id ∈ processed →
        on_order_update processed d cb uid = (processed, [])) ∧
    (∀ (cb : TradeRecord → Bool) (uid : String)
        (init : Finset (Option String)) (events : List RawOrderData)
        (o : Option String),
      countOrd o (runOrderUpdates cb uid init events).2 ≤ 1) := by
  constructor
  · intro processed d cb uid h
    exact on_order_update_of_mem cb uid h
  · intro cb uid init events o
    exact runOrderUpdates_countOrd_le_one cb uid events init o

/-- Raw COMPLETE event with order id `OID7`, used by the C1 witness. -/
def dC1 : RawOrderData :=
  { status := some "COMPLETE", order_id := some "OID7",
    tradingsymbol := some "INFY", exchange := some "NSE",
    transaction_type := some "BUY", quantity := 10, price := 0,
    product := some "CNC", order_type := some "MARKET",
    order_timestamp := some "t0" }

/-- C1 (witness): delivering `OID7` when it is already in the processed set
changes nothing and invokes no callback. -/
theorem C1_at_most_once_witness :
    on_order_update {some "OID7"} dC1 (fun _ => false) "MASTER" =
      ({some "OID7"}, []) :=
  C1_at_most_once.1 {some "OID7"} dC1 (fun _ => false) "MASTER" (by decide)

/-- C9: in `_on_order_update` the order id is added to `processed_orders`
before validation and before the callback runs; a validation reject or a
callback exception still leaves the id marked, permanently, and any
redelivery of that id produces zero callback invocations. -/
theorem C9_failed_events_marked :
    ∀ (processed : Finset (Option String)) (d : RawOrderData)
      (cb : TradeRecord → Bool) (uid : String),
      d.status = some "COMPLETE" → d.order_id ∉ processed →
      d.order_id ∈ (on_order_update processed d cb uid).1 ∧
      (∀ (events : List RawOrderData) (cb2 : TradeRecord → Bool) (uid2 : String),
        d.order_id ∈
          (runOrderUpdates cb2 uid2 (on_order_update processed d cb uid).1 events).1) ∧
      (∀ (d2 : RawOrderData) (cb2 : TradeRecord → Bool) (uid2 : String),
        d2.order_id = d.order_id →
        (on_order_update (on_order_update processed d cb uid).1 d2 cb2 uid2).2 = []) := by
  intro processed d cb uid hs hm
  have hins := on_order_update_insert cb uid hs hm
  have h1 : d.order_id ∈ (on_order_update processed d cb uid).1 := by
    rw [hins]
    exact Finset.mem_insert_self _ _
  refine ⟨h1, ?_, ?_⟩
  · intro events cb2 uid2
    exact runOrderUpdates_subset cb2 uid2 events _ h1
  · intro d2 cb2 uid2 he
    by_cases hs2 : d2.status = some "COMPLETE"
    · have hm2 : d2.order_id ∈ (on_order_update processed d cb uid).1 := by
        rw [he]; exact h1
      rw [on_order_update_of_mem cb2 uid2 hm2]
    · simp only [on_order_update]
      rw [if_neg hs2]

/-- COMPLETE event that fails validation (quantity 0), used by the C9
witness; its callback stub raises on every record. -/
def dC9 : RawOrderData :=
  { status := some "COMPLETE", order_id := some "OID9",
    tradingsymbol := some "INFY", exchange := some "NSE",
    transaction_type := some "BUY", quantity := 0, price := 0,
    product := some "CNC", order_type := some "MARKET",
    order_timestamp := some "t0" }

/-- Redelivery of the same order identity with different surface fields,
used by the C9 witness. -/
def dC9b : RawOrderData :=
  { status := some "COMPLETE", order_id := some "OID9",
    tradingsymbol := some "INFY", exchange := some "NSE",
    transaction_type := some "BUY", quantity := 10, price := 0,
    product := some "CNC", order_type := some "MARKET",
    order_timestamp := some "t1" }

/-- C9 (witness): the invalid `OID9` event is marked processed even though
validation rejects it, and redelivering `OID9` (now valid) yields zero
callback invocations. -/
theorem C9_failed_events_marked_witness :
    dC9.order_id ∈ (on_order_update ∅ dC9 (fun _ => true) "MASTER").1 ∧
    (on_order_update (on_order_update ∅ dC9 (fun _ => true) "MASTER").1 dC9b
      (fun _ => true) "MASTER").2 = [] :=
  ⟨(C9_failed_events_marked ∅ dC9 (fun _ => true) "MASTER" (by decide)
      (by decide)).1,
    (C9_failed_events_marked ∅ dC9 (fun _ => true) "MASTER" (by decide)
      (by decide)).2.2 dC9b (fun _ => true) "MASTER" (by decide)⟩

/-! ## C8: the processed-order set is unbounded -/

/-- Distinct synthetic order ids: `i` letters `a`. -/
def natOrderId (i : ℕ) : String :=
  String.mk (List.replicate i 'a')

theorem natOrderId_injective : Function.Injective natOrderId := by
  intro i j h
  have hd : (natOrderId i).data = (natOrderId j).data := congrArg String.data h
  have hlen : (List.replicate i 'a').length = (List.replicate j 'a').length :=
    congrArg List.length hd
  simpa using hlen

/-- A minimal COMPLETE raw event with order id `natOrderId i`. -/
def mkCompleteEvent (i : ℕ) : RawOrderData :=
  { status := some "COMPLETE", order_id := some (natOrderId i),
    tradingsymbol := none, exchange := none, transaction_type := none,
    quantity := 0, price := 0, product := none, order_type := none,
    order_timestamp := none }

/-- Processing COMPLETE events with fresh, pairwise-distinct order ids grows
the set by exactly one element per event. -/
theorem runOrderUpdates_card (cb : TradeRecord → Bool) (uid : String) :
    ∀ (events : List RawOrderData) (init : Finset (Option String)),
      (∀ d ∈ events, d.status = some "COMPLETE") →
      (events.map RawOrderData.order_id).Nodup →
      (∀ d ∈ events, d.order_id ∉ init) →
      ((runOrderUpdates cb uid init events).1).card = init.card + events.length := by
  intro events
  induction events with
  | nil => intro init _ _ _; simp [runOrderUpdates]
  | cons d rest ih =>
    intro init hstat hnodup hfresh
    have hs : d.status = some "COMPLETE" := hstat d (List.mem_cons_self _ _)
    have hm : d.order_id ∉ init := hfresh d (List.mem_cons_self _ _)
    have hins := on_order_update_insert cb uid hs hm
    show ((runOrderUpdates cb uid (on_order_update init d cb uid).1 rest).1).card = _
    rw [ih (on_order_update init d cb uid).1
      (fun d2 h2 => hstat d2 (List.mem_cons_of_mem _ h2))
      (by
        rw [List.map_cons] at hnodup
        exact hnodup.of_cons)
      (by
        intro d2 h2
        rw [hins, Finset.mem_insert]
        push_neg
        constructor
        · intro heq
          rw [List.map_cons, List.nodup_cons] at hnodup
          exact hnodup.1 (heq ▸ List.mem_map_of_mem RawOrderData.order_id h2)
        · exact hfresh d2 (List.mem_cons_of_mem _ h2)), hins,
      Finset.card_insert_of_not_mem hm]
    simp only [List.length_cons]
    omega

theorem card_fresh_run (T : ℕ) :
    ((runOrderUpdates (fun _ => false) "MASTER" ∅
        ((List.range (T + 1)).map mkCompleteEvent)).1).card = T + 1 := by
  have hstat : ∀ d ∈ (List.range (T + 1)).map mkCompleteEvent,
      d.status = some "COMPLETE" := by
    intro d hd
    rcases List.mem_map.mp hd with ⟨i, _, rfl⟩
    rfl
  have hnodup : (((List.range (T + 1)).map mkCompleteEvent).map
      RawOrderData.order_id).Nodup := by
    rw [List.map_map]
    have hfun : (RawOrderData.order_id ∘ mkCompleteEvent) =
        fun i => some (natOrderId i) := rfl
    rw [hfun]
    exact (List.nodup_range _).map
      (fun i j h => natOrderId_injective (Option.some.inj h))
  have hfresh : ∀ d ∈ (List.range (T + 1)).map mkCompleteEvent,
      d.order_id ∉ (∅ : Finset (Option String)) := by
    intro d _
    exact Finset.not_mem_empty _
  rw [runOrderUpdates_card _ _ _ _ hstat hnodup hfresh]
  simp

/-- C8 (counterexample): no size threshold bounds the processed-order set —
for any candidate bound `T`, delivering `T + 1` completed orders with
distinct ids leaves the set at size `T + 1`.  `_on_order_update` only ever
inserts; no rotation or reset exists in `core/master_client.py`. -/
theorem C8_counterexample :
    ¬ ∃ T : ℕ, ∀ events : List RawOrderData,
      ((runOrderUpdates (fun _ => false) "MASTER" ∅ events).1).card ≤ T := by
  rintro ⟨T, hT⟩
  have h1 := card_fresh_run T
  have h2 := hT ((List.range (T + 1)).map mkCompleteEvent)
  omega

/-- C8 (amended): the set is append-only — no invocation of the handler
removes entries — but it is unbounded: it is never rotated or reset, and
every threshold is exceeded by some event sequence.  (A size-50 rotation
exists only in the unrelated notification utility
`utils/automated_token_generator.py`.) -/
theorem C8_unbounded_append_only :
    (∀ (processed : Finset (Option String)) (d : RawOrderData)
        (cb : TradeRecord → Bool) (uid : String),
      processed ⊆ (on_order_update processed d cb uid).1) ∧
    (∀ T : ℕ, ∃ events : List RawOrderData,
      T < ((runOrderUpdates (fun _ => false) "MASTER" ∅ events).1).card) := by
  constructor
  · exact on_order_update_subset
  · intro T
    exact ⟨(List.range (T + 1)).map mkCompleteEvent, by rw [card_fresh_run]; omega⟩

/-! ## C7: fan-out aggregation -/

theorem outcomeBool_eq_true_iff (o : FollowerOutcome) :
    outcomeBool o = true ↔ o = FollowerOutcome.ok true := by
  cases o with
  | ok b => cases b <;> simp [outcomeBool]
  | exn m => simp [outcomeBool]

theorem successful_count_eq_length_iff (outcomes : List FollowerOutcome) :
    (outcomes.map outcomeBool).countP (fun b => b) = outcomes.length ↔
      ∀ o ∈ outcomes, o = FollowerOutcome.ok true := by
  rw [List.countP_map]
  constructor
  · intro h o ho
    exact (outcomeBool_eq_true_iff o).mp (List.countP_eq_length.mp h o ho)
  · intro h
    exact List.countP_eq_length.mpr
      (fun o ho => (outcomeBool_eq_true_iff o).mpr (h o ho))

/-- C7: when trading is allowed, `_on_master_trade` processes every
follower (one recorded outcome per follower, an exception recorded as a
failure without stopping the loop), increments `successful_replications`
exactly when all followers succeeded, and otherwise increments
`failed_replications`; `total_trades_processed` always increments. -/
theorem C7_fanout_aggregation (stats : SystemStats)
    (outcomes : List FollowerOutcome) :
    (on_master_trade stats true outcomes).2 = outcomes.map outcomeBool ∧
    (on_master_trade stats true outcomes).2.length = outcomes.length ∧
    (on_master_trade stats true outcomes).1.successful_replications =
      (if ∀ o ∈ outcomes, o = FollowerOutcome.ok true
        then stats.successful_replications + 1
        else stats.successful_replications) ∧
    (on_master_trade stats true outcomes).1.failed_replications =
      (if ∀ o ∈ outcomes, o = FollowerOutcome.ok true
        then stats.failed_replications
        else stats.failed_replications + 1) ∧
    (on_master_trade stats true outcomes).1.total_trades_processed =
      stats.total_trades_processed + 1 := by
  have hne : ¬ (true = false) := by simp
  by_cases hall : ∀ o ∈ outcomes, o = FollowerOutcome.ok true
  · have hcount : (outcomes.map outcomeBool).countP (fun b => b) =
        outcomes.length := (successful_count_eq_length_iff outcomes).mpr hall
    simp only [on_master_trade, if_neg hne, if_pos hcount, if_pos hall]
    simp
  · have hcount : ¬ (outcomes.map outcomeBool).countP (fun b => b) =
        outcomes.length :=
      fun h => hall ((successful_count_eq_length_iff outcomes).mp h)
    simp only [on_master_trade, if_neg hne, if_neg hcount, if_neg hall]
    simp

/-! ## C10: order type, price and product of the submitted order -/

theorem build_order_params_fields (t : TradeData) (a : ℤ) :
    (build_order_params t a).order_type =
      (if t.order_type = "LIMIT" ∧ t.price ≠ 0 then "LIMIT" else "MARKET") ∧
    (build_order_params t a).price =
      (if t.order_type = "LIMIT" ∧ t.price ≠ 0 then some t.price else none) ∧
    (build_order_params t a).product =
      (if t.exchange = "MCX" ∧ t.product ∉ (["MIS", "NRML"] : List String)
        then "MIS" else t.product) := by
  simp only [build_order_params]
  split_ifs <;> exact ⟨rfl, rfl, rfl⟩

/-- C10: every submitted follower order is a MARKET order unless the master
trade is a LIMIT order with a nonzero (truthy) price, in which case it is a
LIMIT order at the master's price; and on MCX a master product outside
`{MIS, NRML}` is silently coerced to `MIS`, while elsewhere the product is
passed through. -/
theorem C10_order_type_product (f : FollowerState) (t : TradeData)
    (p : OrderParams) (h : replicate_trade_order f t = some p) :
    p.order_type =
      (if t.order_type = "LIMIT" ∧ t.price ≠ 0 then "LIMIT" else "MARKET") ∧
    p.price =
      (if t.order_type = "LIMIT" ∧ t.price ≠ 0 then some t.price else none) ∧
    p.product =
      (if t.exchange = "MCX" ∧ t.product ∉ (["MIS", "NRML"] : List String)
        then "MIS" else t.product) := by
  simp only [replicate_trade_order] at h
  split_ifs at h with h1 h2
  have hp : p = build_order_params t (calculate_quantity f t.quantity t.exchange) :=
    (Option.some.inj h).symm
  rw [hp]
  exact build_order_params_fields t _

/-- Follower used by the C10 witness (base multiplier 0.5, MCX segment
limit `1000 // 5 = 200`). -/
def fC10 : FollowerState := mkFollowerState (mkAccountConfig (1/2) 1000 true)

/-- MCX LIMIT master trade with product CNC, used by the C10 witness. -/
def tC10 : TradeData :=
  { order_id := "MO10", tradingsymbol := "COPPER24DECFUT", exchange := "MCX",
    transaction_type := "SELL", quantity := 100, price := 101,
    product := "CNC", order_type := "LIMIT" }

theorem fC10_replicate :
    replicate_trade_order fC10 tC10 = some (build_order_params tC10 50) := by
  have ha : adjustedQty fC10 tC10 = 50 := by
    show pyInt ((100 : ℤ) * segMultiplier fC10 "MCX") = 50
    rw [show segMultiplier fC10 "MCX" = 1/2 from rfl]
    norm_num [pyInt]
  have hrisk : (check_risk_limits fC10 tC10).1 = true := by
    simp only [check_risk_limits, ha]
    decide
  have hc : calculate_quantity fC10 tC10.quantity tC10.exchange = 50 := by
    show calculate_quantity fC10 (100 : ℤ) "MCX" = 50
    rw [calculate_quantity_eq, show segMultiplier fC10 "MCX" = 1/2 from rfl]
    norm_num [pyInt]
  simp only [replicate_trade_order]
  rw [if_neg (by simp [hrisk]), hc, if_neg (by omega)]

/-- C10 (witness): the MCX LIMIT trade is submitted as a LIMIT order at the
master price with product coerced to MIS. -/
theorem C10_order_type_product_witness :
    (build_order_params tC10 50).order_type =
      (if tC10.order_type = "LIMIT" ∧ tC10.price ≠ 0 then "LIMIT" else "MARKET") ∧
    (build_order_params tC10 50).price =
      (if tC10.order_type = "LIMIT" ∧ tC10.price ≠ 0 then some tC10.price else none) ∧
    (build_order_params tC10 50).product =
      (if tC10.exchange = "MCX" ∧ tC10.product ∉ (["MIS", "NRML"] : List String)
        then "MIS" else tC10.product) :=
  C10_order_type_product fC10 tC10 (build_order_params tC10 50) fC10_replicate

/-! ## C3: the options override and its trigger -/

/-- Follower used for spec Scenario A: base multiplier `0.5`, an explicit
NFO segment limit of 500, and no multiplier overrides (an explicitly empty
dict is kept as-is by `__post_init__`, a `None` is replaced by defaults). -/
def cfgA : AccountConfig :=
  { multiplier := 1/2
    max_position_size := 500
    enabled := true
    enabled_segments := default_enabled_segments
    segment_multipliers := []
    segment_limits := [("NFO", 500)] }

def fA : FollowerState := mkFollowerState cfgA

/-- Scenario A event: NFO option contract `X24DECCE`, quantity 100. -/
def tA : TradeData :=
  { order_id := "MOA", tradingsymbol := "X24DECCE", exchange := "NFO",
    transaction_type := "BUY", quantity := 100, price := 0,
    product := "NRML", order_type := "MARKET" }

theorem fA_adjusted : adjustedQty fA tA = 50 := by
  show pyInt ((100 : ℤ) * segMultiplier fA "NFO") = 50
  rw [show segMultiplier fA "NFO" = 1/2 from rfl]
  norm_num [pyInt]

theorem fA_risk_eval :
    check_risk_limits fA tA = (true, "Risk check passed for NFO") := by
  simp only [check_risk_limits, fA_adjusted]
  decide

/-- C3 (amended): on a derivatives segment (NFO/BFO), once the
enabled/daily/position-size checks pass and the daily loss floor is not
hit, the halved options limit `segment_limit // 2` is applied — and is the
only remaining way to deny — if and only if the symbol CONTAINS the
substring `CE` or `PE` (the source tests substring containment, not an
ends-with suffix).  Scenario A holds as specified: `X24DECCE` with
multiplier 0.5 and limit 500 is allowed with quantity 50 against the halved
limit 250. -/
theorem C3_options_by_containment :
    (∀ (f : FollowerState) (t : TradeData),
      (t.exchange = "NFO" ∨ t.exchange = "BFO") →
      f.config.enabled = true →
      t.exchange ∈ f.config.enabled_segments →
      f.daily_trades_count < f.max_daily_trades →
      adjustedQty f t ≤ segLimit f t.exchange →
      ¬ (f.daily_pnl < -f.max_daily_loss) →
      ((check_risk_limits f t).1 = false ↔
        isOptionsSymbol t.tradingsymbol = true ∧
          (segLimit f t.exchange).fdiv 2 < adjustedQty f t)) ∧
    isOptionsSymbol = (fun s => containsSub s "CE" || containsSub s "PE") ∧
    (check_risk_limits fA tA = (true, "Risk check passed for NFO") ∧
      (segLimit fA tA.exchange).fdiv 2 = 250 ∧
      adjustedQty fA tA = 50 ∧
      calculate_quantity fA 100 "NFO" = 50) := by
  refine ⟨?_, rfl, fA_risk_eval, by decide, fA_adjusted, ?_⟩
  · intro f t hex hen hmem hcnt hle hpnl
    have hMCX : ¬ t.exchange = "MCX" := by
      rcases hex with h | h <;> rw [h] <;> decide
    have hCDS : ¬ t.exchange = "CDS" := by
      rcases hex with h | h <;> rw [h] <;> decide
    simp only [check_risk_limits]
    rw [if_neg (by simp [hen]), if_neg (not_not_intro hmem),
      if_neg (not_le.mpr hcnt), if_neg (not_lt.mpr hle),
      if_neg (fun hc => hMCX hc.1)]
    by_cases hopt : isOptionsSymbol t.tradingsymbol = true ∧
        (segLimit f t.exchange).fdiv 2 < adjustedQty f t
    · rw [if_pos ⟨hex, hopt.1, hopt.2⟩]
      exact iff_of_true rfl hopt
    · rw [if_neg (fun hc => hopt ⟨hc.2.1, hc.2.2⟩),
        if_neg (fun hc => hCDS hc.1), if_neg hpnl]
      exact iff_of_false (by simp) hopt
  · rw [calculate_quantity_eq, show segMultiplier fA "NFO" = 1/2 from rfl]
    norm_num [pyInt]

/-- Follower used by the C3 counterexample: multiplier 1, NFO limit
`1000 // 2 = 500`. -/
def fC3 : FollowerState := mkFollowerState (mkAccountConfig 1 1000 true)

/-- NFO trade whose symbol `SPICEJET24DECFUT` contains `CE` as a substring
but does not END in `CE` or `PE`. -/
def tC3 : TradeData :=
  { order_id := "MO3", tradingsymbol := "SPICEJET24DECFUT", exchange := "NFO",
    transaction_type := "BUY", quantity := 300, price := 0,
    product := "NRML", order_type := "MARKET" }

/-- C3 (counterexample): `SPICEJET24DECFUT` does not end in a call/put
suffix, yet the source's substring test fires and the halved options limit
denies the trade (`300 > 250`); under the claim's "ends in a suffix"
reading no halving would occur and the trade (300 ≤ 500) would be allowed. -/
theorem C3_counterexample :
    endsWithSuffix "SPICEJET24DECFUT" "CE" = false ∧
    endsWithSuffix "SPICEJET24DECFUT" "PE" = false ∧
    check_risk_limits fC3 tC3 =
      (false, "Options position limit exceeded: 300 > 250") := by
  refine ⟨by decide, by decide, ?_⟩
  have ha : adjustedQty fC3 tC3 = 300 := by
    show pyInt ((300 : ℤ) * segMultiplier fC3 "NFO") = 300
    rw [show segMultiplier fC3 "NFO" = 1 from rfl]
    norm_num [pyInt]
  simp only [check_risk_limits, ha]
  decide

/-- C3 (witness): the amended characterisation applied to Scenario A's
follower and event, with every hypothesis discharged concretely. -/
theorem C3_options_by_containment_witness :
    (check_risk_limits fA tA).1 = false ↔
      isOptionsSymbol tA.tradingsymbol = true ∧
        (segLimit fA tA.exchange).fdiv 2 < adjustedQty fA tA :=
  C3_options_by_containment.1 fA tA (Or.inl rfl) rfl (by decide) (by decide)
    (by rw [fA_adjusted]; decide)
    (by decide)

end KiteCopy
